import Mathlib

/-!
RAC-Lock: lock operating mode and its display label

Shallow embedding of `src/lock_state.h` and `src/lock_state.cpp`.

* `enum class Mode : uint8_t { LOCKED, UNLOCKED, UNLOCKING, LOCKING, ERROR_MODE }`
  is a scoped enumeration with a fixed underlying type, so every `uint8_t`
  value (0..255) is a value of `Mode`.  A `Mode` is therefore embedded as its
  underlying byte together with the bound `< 256`.
* `modeName` is a `switch` over the five enumerators followed by an
  unconditional `return "ERROR";`.  The `switch` is embedded as
  `switchStmt`, which yields `some label` when a `case` returns and `none`
  when no `case` matches and control leaves the `switch`.
-/

namespace RACLock

/-- Value of `enum class Mode : uint8_t`: the underlying byte. -/
structure Mode where
  /-- Underlying `uint8_t` value. -/
  raw : Nat
  /-- The underlying value fits in eight bits. -/
  inRange : raw < 256
deriving DecidableEq, Repr

namespace Mode

/-- Enumerator `Mode::LOCKED` (first declared, underlying value 0). -/
def LOCKED : Mode := ⟨0, by decide⟩

/-- Enumerator `Mode::UNLOCKED` (previous enumerator plus one). -/
def UNLOCKED : Mode := ⟨LOCKED.raw + 1, by decide⟩

/-- Enumerator `Mode::UNLOCKING` (previous enumerator plus one). -/
def UNLOCKING : Mode := ⟨UNLOCKED.raw + 1, by decide⟩

/-- Enumerator `Mode::LOCKING` (previous enumerator plus one). -/
def LOCKING : Mode := ⟨UNLOCKING.raw + 1, by decide⟩

/-- Enumerator `Mode::ERROR_MODE` (previous enumerator plus one). -/
def ERROR_MODE : Mode := ⟨LOCKING.raw + 1, by decide⟩

/-- The enumerators of `Mode`, in declaration order. -/
def enumerators : List Mode := [LOCKED, UNLOCKED, UNLOCKING, LOCKING, ERROR_MODE]

end Mode

/-- The `switch (m) { case ...: return ...; }` statement of `modeName`:
`some s` when a `case` label equals `m` and its `return s;` runs, `none` when
no label matches and control continues after the `switch`. -/
def switchStmt (m : Mode) : Option String :=
  if m = Mode.LOCKED then some "LOCKED"
  else if m = Mode.UNLOCKED then some "UNLOCKED"
  else if m = Mode.UNLOCKING then some "UNLOCKING"
  else if m = Mode.LOCKING then some "LOCKING"
  else if m = Mode.ERROR_MODE then some "ERROR"
  else none

/-- Body of `const char* modeName(Mode m)`: the `switch`, then the trailing
`return "ERROR";` reached when the `switch` did not return. -/
def modeName (m : Mode) : String :=
  match switchStmt m with
  | some s => s
  | none => "ERROR"

/-- The five label strings appearing in `modeName`. -/
def labels : List String := ["LOCKED", "UNLOCKED", "UNLOCKING", "LOCKING", "ERROR"]

/-! ### Statement-level model of the function body

`modeName` above is a pure function, so it cannot by itself express that the
C++ body consults no program state.  The body is therefore also transcribed
as a statement of a small C++ fragment whose meaning is given relative to a
store of global variables.  The fragment has a global read and a global
assignment, so a statement of the fragment can depend on the store and can
change it; whether the body of `modeName` does is a matter of proof. -/

/-- Program state outside the function: the values of the global
`const char*` variables, by index. -/
structure Store where
  /-- Current value of each global. -/
  globals : List String
deriving DecidableEq, Repr

/-- A `const char*` expression of the fragment. -/
inductive StrExpr where
  /-- A string literal. -/
  | lit (s : String)
  /-- The current value of the global with the given index. -/
  | global (i : Nat)
deriving DecidableEq, Repr

/-- Value of a `const char*` expression in a store (an unset global reads as
the empty string). -/
def StrExpr.value (σ : Store) : StrExpr → String
  | StrExpr.lit s => s
  | StrExpr.global i => σ.globals.getD i ""

/-- A statement of the fragment, inside a function with one parameter `m` of
type `Mode`. -/
inductive Stmt where
  /-- The statement `return e;`. -/
  | ret (e : StrExpr)
  /-- The statement `switch (m) { case c: return e; ... }`, each `case` being a
  label and the expression it returns. -/
  | switchRet (cases : List (Mode × StrExpr))
  /-- The assignment `g = e;` to the global with the given index. -/
  | setGlobal (i : Nat) (e : StrExpr)
  /-- Two statements in sequence. -/
  | seq (s t : Stmt)
deriving Repr

/-- Execution of a statement with parameter value `m` in store `σ`: the
returned string (`none` when the statement completes without a `return`) and
the store afterwards. -/
def Stmt.exec (m : Mode) : Stmt → Store → Option String × Store
  | Stmt.ret e, σ => (some (e.value σ), σ)
  | Stmt.switchRet cases, σ =>
    match cases.find? (fun c => decide (c.1 = m)) with
    | some c => (some (c.2.value σ), σ)
    | none => (none, σ)
  | Stmt.setGlobal i e, σ => (none, ⟨σ.globals.set i (e.value σ)⟩)
  | Stmt.seq s t, σ =>
    match s.exec m σ with
    | (some r, σ1) => (some r, σ1)
    | (none, σ1) => t.exec m σ1

/-- The `switch` statement of `src/lock_state.cpp`, lines 3 to 9. -/
def modeNameSwitch : Stmt :=
  Stmt.switchRet
    [(Mode.LOCKED, StrExpr.lit "LOCKED"),
     (Mode.UNLOCKED, StrExpr.lit "UNLOCKED"),
     (Mode.UNLOCKING, StrExpr.lit "UNLOCKING"),
     (Mode.LOCKING, StrExpr.lit "LOCKING"),
     (Mode.ERROR_MODE, StrExpr.lit "ERROR")]

/-- The body of `modeName` in `src/lock_state.cpp`: the `switch`, then
`return "ERROR";`. -/
def modeNameBody : Stmt :=
  Stmt.seq modeNameSwitch (Stmt.ret (StrExpr.lit "ERROR"))

/-! ## Auxiliary facts -/

/-- Two modes with the same underlying byte are the same mode. -/
theorem Mode.eq_of_raw_eq {a b : Mode} (h : a.raw = b.raw) : a = b := by
  cases a
  cases b
  simp only at h
  subst h
  rfl

/-- A mode is one of the enumerators exactly when its byte is at most 4. -/
theorem Mode.mem_enumerators_iff (m : Mode) : m ∈ Mode.enumerators ↔ m.raw ≤ 4 := by
  rcases m with ⟨n, hn⟩
  simp only [Mode.enumerators, Mode.LOCKED, Mode.UNLOCKED, Mode.UNLOCKING, Mode.LOCKING,
    Mode.ERROR_MODE, List.mem_cons, List.mem_singleton, Mode.mk.injEq, List.mem_nil_iff,
    or_false]
  omega

/-- No `case` label matches a byte of 5 or more. -/
theorem switchStmt_none_of_five_le (m : Mode) (h : 5 ≤ m.raw) : switchStmt m = none := by
  rcases m with ⟨n, hn⟩
  simp only at h
  have h0 : n ≠ 0 := by omega
  have h1 : n ≠ 1 := by omega
  have h2 : n ≠ 2 := by omega
  have h3 : n ≠ 3 := by omega
  have h4 : n ≠ 4 := by omega
  simp [switchStmt, Mode.LOCKED, Mode.UNLOCKED, Mode.UNLOCKING, Mode.LOCKING,
    Mode.ERROR_MODE, h0, h1, h2, h3, h4]

/-- A mode whose byte is at most 4 is literally one of the five enumerators. -/
theorem Mode.cases_of_le_four (m : Mode) (h : m.raw ≤ 4) :
    m = Mode.LOCKED ∨ m = Mode.UNLOCKED ∨ m = Mode.UNLOCKING ∨ m = Mode.LOCKING ∨
      m = Mode.ERROR_MODE := by
  have hm := (Mode.mem_enumerators_iff m).mpr h
  simpa [Mode.enumerators] using hm

/-- The fallback path: bytes of 5 or more give the trailing return value. -/
theorem modeName_of_five_le (m : Mode) (h : 5 ≤ m.raw) : modeName m = "ERROR" := by
  simp [modeName, switchStmt_none_of_five_le m h]

/-- The transcribed `switch` returns what `switchStmt` returns, in every
store, and leaves the store as it was. -/
theorem modeNameSwitch_exec (m : Mode) (σ : Store) :
    modeNameSwitch.exec m σ = (switchStmt m, σ) := by
  by_cases h : m.raw ≤ 4
  · rcases Mode.cases_of_le_four m h with h | h | h | h | h <;> subst h <;> rfl
  · have hn : switchStmt m = none := switchStmt_none_of_five_le m (by omega)
    have hf : ∀ c : Mode, c.raw ≤ 4 → decide (c = m) = false := by
      intro c hc
      apply decide_eq_false
      intro hcm
      subst hcm
      exact h hc
    rw [hn]
    simp only [modeNameSwitch, Stmt.exec, List.find?_cons, List.find?_nil]
    rw [hf Mode.LOCKED (by decide), hf Mode.UNLOCKED (by decide),
      hf Mode.UNLOCKING (by decide), hf Mode.LOCKING (by decide),
      hf Mode.ERROR_MODE (by decide)]

/-- Running the transcribed body returns `modeName m` in every store and
leaves the store as it was. -/
theorem modeNameBody_exec (m : Mode) (σ : Store) :
    modeNameBody.exec m σ = (some (modeName m), σ) := by
  have hseq : modeNameBody.exec m σ =
      (match modeNameSwitch.exec m σ with
        | (some r, σ1) => (some r, σ1)
        | (none, σ1) => (Stmt.ret (StrExpr.lit "ERROR")).exec m σ1) := rfl
  rw [hseq, modeNameSwitch_exec m σ]
  unfold modeName
  cases switchStmt m <;> rfl

/-! ## Claims -/

/-- C1: each of the five enumerators is mapped by `modeName` to its fixed
label: LOCKED to "LOCKED", UNLOCKED to "UNLOCKED", UNLOCKING to "UNLOCKING",
LOCKING to "LOCKING" and ERROR_MODE to "ERROR". -/
theorem modeName_enumerator_labels :
    modeName Mode.LOCKED = "LOCKED" ∧ modeName Mode.UNLOCKED = "UNLOCKED" ∧
      modeName Mode.UNLOCKING = "UNLOCKING" ∧ modeName Mode.LOCKING = "LOCKING" ∧
      modeName Mode.ERROR_MODE = "ERROR" := by
  refine ⟨?_, ?_, ?_, ?_, ?_⟩ <;> decide

/-- C2: every byte from 5 to 255, taken as a `Mode`, is none of the five
enumerators and `modeName` returns "ERROR" for it. -/
theorem modeName_undefined_is_error (n : Nat) (h5 : 5 ≤ n) (h255 : n ≤ 255) :
    (Mode.mk n (Nat.lt_succ_of_le h255)) ∉ Mode.enumerators ∧
      modeName (Mode.mk n (Nat.lt_succ_of_le h255)) = "ERROR" := by
  constructor
  · rw [Mode.mem_enumerators_iff]
    simp only
    omega
  · exact modeName_of_five_le _ h5

/-- Witness for C2 at the byte 200. -/
theorem modeName_undefined_is_error_witness :
    (5 ≤ 200 ∧ 200 ≤ 255) ∧
      (Mode.mk 200 (by decide)) ∉ Mode.enumerators ∧
      modeName (Mode.mk 200 (by decide)) = "ERROR" :=
  ⟨by decide, modeName_undefined_is_error 200 (by decide) (by decide)⟩

/-- C3: for every one of the 256 values of `Mode`, the string returned by
`modeName` is one of "LOCKED", "UNLOCKED", "UNLOCKING", "LOCKING", "ERROR". -/
theorem modeName_mem_labels (m : Mode) : modeName m ∈ labels := by
  by_cases h : m.raw ≤ 4
  · rcases Mode.cases_of_le_four m h with h | h | h | h | h <;> subst h <;> decide
  · rw [modeName_of_five_le m (by omega)]
    decide

/-- C4: `modeName` is total and has no failure path.  Its result type is
`String`, and every value of `Mode` leaves through one of the two kinds of
`return`: an enumerator is matched by a `case` of the `switch`, whose label is
the result; any other value matches no `case`, control leaves the `switch`,
and the trailing `return` gives "ERROR". -/
theorem modeName_total (m : Mode) :
    (m ∈ Mode.enumerators ∧ ∃ s : String, switchStmt m = some s ∧ modeName m = s) ∨
      (m ∉ Mode.enumerators ∧ switchStmt m = none ∧ modeName m = "ERROR") := by
  by_cases h : m.raw ≤ 4
  · left
    refine ⟨(Mode.mem_enumerators_iff m).mpr h, ?_⟩
    rcases Mode.cases_of_le_four m h with h | h | h | h | h <;> subst h
    · exact ⟨"LOCKED", by decide, by decide⟩
    · exact ⟨"UNLOCKED", by decide, by decide⟩
    · exact ⟨"UNLOCKING", by decide, by decide⟩
    · exact ⟨"LOCKING", by decide, by decide⟩
    · exact ⟨"ERROR", by decide, by decide⟩
  · right
    have h5 : 5 ≤ m.raw := by omega
    exact ⟨fun hm => h ((Mode.mem_enumerators_iff m).mp hm),
      switchStmt_none_of_five_le m h5, modeName_of_five_le m h5⟩

/-- C5: `modeName` is deterministic and depends on no state.  Running the body
of `modeName` on two arguments of equal value, in any two stores of global
variables, returns the same string; that string is the label `modeName` of the
argument; and the run leaves the store it started in unchanged. -/
theorem modeName_deterministic (a b : Mode) (σ₁ σ₂ : Store) (h : a.raw = b.raw) :
    (modeNameBody.exec a σ₁).1 = (modeNameBody.exec b σ₂).1 ∧
      (modeNameBody.exec a σ₁).1 = some (modeName a) ∧
      (modeNameBody.exec a σ₁).2 = σ₁ ∧ (modeNameBody.exec b σ₂).2 = σ₂ := by
  have hab : a = b := Mode.eq_of_raw_eq h
  subst hab
  rw [modeNameBody_exec a σ₁, modeNameBody_exec a σ₂]
  exact ⟨rfl, rfl, rfl, rfl⟩

/-- Witness for C5: the enumerator LOCKING run in an empty store and the byte 3
run in a store holding two globals. -/
theorem modeName_deterministic_witness :
    Mode.LOCKING.raw = (Mode.mk 3 (by decide)).raw ∧
      ((modeNameBody.exec Mode.LOCKING ⟨[]⟩).1 =
          (modeNameBody.exec (Mode.mk 3 (by decide)) ⟨["ERROR", "x"]⟩).1 ∧
        (modeNameBody.exec Mode.LOCKING ⟨[]⟩).1 = some (modeName Mode.LOCKING) ∧
        (modeNameBody.exec Mode.LOCKING ⟨[]⟩).2 = ⟨[]⟩ ∧
        (modeNameBody.exec (Mode.mk 3 (by decide)) ⟨["ERROR", "x"]⟩).2 = ⟨["ERROR", "x"]⟩) :=
  ⟨by decide, modeName_deterministic Mode.LOCKING (Mode.mk 3 (by decide)) ⟨[]⟩
    ⟨["ERROR", "x"]⟩ (by decide)⟩

/-- C6: `Mode` has exactly five valid values: the enumerators LOCKED,
UNLOCKED, UNLOCKING, LOCKING, ERROR_MODE have underlying values 0, 1, 2, 3, 4 in
declaration order, they are pairwise distinct, there are five of them, and a
value is one of them if and only if its underlying value is at most 4. -/
theorem Mode_five_valid_values :
    (Mode.LOCKED.raw = 0 ∧ Mode.UNLOCKED.raw = 1 ∧ Mode.UNLOCKING.raw = 2 ∧
        Mode.LOCKING.raw = 3 ∧ Mode.ERROR_MODE.raw = 4) ∧
      Mode.enumerators.map Mode.raw = [0, 1, 2, 3, 4] ∧
      Mode.enumerators.Pairwise (fun a b => a ≠ b) ∧
      Mode.enumerators.length = 5 ∧
      ∀ m : Mode, m ∈ Mode.enumerators ↔ m.raw ≤ 4 := by
  refine ⟨by decide, by decide, by decide, by decide, Mode.mem_enumerators_iff⟩

/-- C7: `modeName m` is "ERROR" if and only if `m` is ERROR_MODE or is none of
the five enumerators, which is the same as its underlying value being at
least 4; and LOCKED, UNLOCKED, UNLOCKING, LOCKING never yield "ERROR". -/
theorem modeName_eq_error_iff :
    (∀ m : Mode,
        (modeName m = "ERROR" ↔ (m = Mode.ERROR_MODE ∨ m ∉ Mode.enumerators)) ∧
        ((m = Mode.ERROR_MODE ∨ m ∉ Mode.enumerators) ↔ 4 ≤ m.raw)) ∧
      (modeName Mode.LOCKED ≠ "ERROR" ∧ modeName Mode.UNLOCKED ≠ "ERROR" ∧
        modeName Mode.UNLOCKING ≠ "ERROR" ∧ modeName Mode.LOCKING ≠ "ERROR") := by
  refine ⟨fun m => ?_, by decide, by decide, by decide, by decide⟩
  have key : (m = Mode.ERROR_MODE ∨ m ∉ Mode.enumerators) ↔ 4 ≤ m.raw := by
    rw [Mode.mem_enumerators_iff]
    constructor
    · rintro (h | h)
      · subst h
        decide
      · omega
    · intro h
      by_cases h4 : m.raw = 4
      · left
        exact Mode.eq_of_raw_eq h4
      · right
        omega
  refine ⟨?_, key⟩
  rw [key]
  by_cases h : m.raw ≤ 4
  · rcases Mode.cases_of_le_four m h with h | h | h | h | h <;> subst h <;> decide
  · have h5 : 5 ≤ m.raw := by omega
    exact ⟨fun _ => by omega, fun _ => modeName_of_five_le m h5⟩

/-- C8: `modeName` is injective on the five enumerators (equal labels force
equal enumerators), while on all of `Mode` it is not injective: every value
with underlying byte from 4 to 255 has the label "ERROR". -/
theorem modeName_injective_on_enumerators :
    (∀ a b : Mode, a ∈ Mode.enumerators → b ∈ Mode.enumerators →
        modeName a = modeName b → a = b) ∧
      (∀ m : Mode, 4 ≤ m.raw → modeName m = "ERROR") ∧
      ¬ Function.Injective modeName := by
  refine ⟨?_, ?_, ?_⟩
  · intro a b ha hb
    have ha4 := Mode.cases_of_le_four a ((Mode.mem_enumerators_iff a).mp ha)
    have hb4 := Mode.cases_of_le_four b ((Mode.mem_enumerators_iff b).mp hb)
    rcases ha4 with h | h | h | h | h <;> subst h <;>
      rcases hb4 with h | h | h | h | h <;> subst h <;> decide
  · intro m h
    by_cases h4 : m.raw = 4
    · rw [@Mode.eq_of_raw_eq m Mode.ERROR_MODE h4]
      decide
    · exact modeName_of_five_le m (by omega)
  · intro hinj
    have h : Mode.ERROR_MODE = Mode.mk 5 (by decide) := hinj (by decide)
    exact absurd h (by decide)

/-- Witness for C8: LOCKING and the byte 3 are enumerators with equal labels,
and they are the same mode. -/
theorem modeName_injective_on_enumerators_witness :
    (Mode.LOCKING ∈ Mode.enumerators ∧ Mode.mk 3 (by decide) ∈ Mode.enumerators ∧
        modeName Mode.LOCKING = modeName (Mode.mk 3 (by decide))) ∧
      Mode.LOCKING = Mode.mk 3 (by decide) :=
  ⟨by decide, modeName_injective_on_enumerators.1 Mode.LOCKING (Mode.mk 3 (by decide))
    (by decide) (by decide) (by decide)⟩

end RACLock
